import Mathlib

/-!
Shallow embedding of the bilibili cache-to-video converter
(`src/main.rs`, `src/error.rs`).

Paths are modelled as lists of components (`FsPath`), file contents as
lists of bytes (`Bytes`), and the filesystem/process environment an item
pipeline runs against as an explicit record (`ItemEnv`).  Each Rust
function of the core pipeline is embedded as a Lean function of the same
name; side effects are returned as an explicit trace (`Effect`), and the
three possible ways a Rust computation ends — returning `Ok`, returning
`Err`, or panicking via `.unwrap()` — are the three constructors of
`Outcome`.
-/

namespace Bilibili

/-- The error enum of `src/error.rs`. -/
inductive RustError where
  | InvalidArgument
  | CommandNotFound
  | ReadDirectoryFailed
  | IOError
  | Utf8Error
  | SerdeJsonError
deriving DecidableEq, Repr

/-- How a Rust computation ends: `Ok`, `Err`, or a panic
(an `.unwrap()` on an `Err`/`None`, which aborts the whole process). -/
inductive Outcome (α : Type) where
  | ok : α → Outcome α
  | err : RustError → Outcome α
  | panic : Outcome α
deriving DecidableEq, Repr

/-- Bytes of a file, as natural numbers. -/
abbrev Bytes := List Nat

/-- A filesystem path, as a list of components; `Path::join` is append. -/
abbrev FsPath := List String

/-- The `VideoInfo` struct deserialized from the `.videoInfo` sidecar
(`main.rs` lines 25-42). -/
structure VideoInfo where
  uname : String
  title : String
  group_title : String
  pubdate : Int
  update_time : Int
  total_size : Nat
  item_id : Nat
  cover_path : String
  group_cover_path : String
deriving DecidableEq, Repr

/-- `const SPECIAL_OFFSET: u64 = 9` (`main.rs` line 19). -/
def SPECIAL_OFFSET : Nat := 9

/-- `const VIDEO_METADATA_FILE: &str = ".videoInfo"` (`main.rs` line 23). -/
def VIDEO_METADATA_FILE : String := ".videoInfo"

/-- What the `.videoInfo` sidecar of an item holds, as seen by
`get_metadata`: missing file (`fs::read` fails), non-UTF-8 bytes,
JSON that does not parse into `VideoInfo`, or a valid record. -/
inductive MetaSrc where
  | missing
  | notUtf8
  | badJson
  | okData : VideoInfo → MetaSrc

/-- `get_metadata` (`main.rs` lines 55-61): reads the sidecar, decodes
UTF-8, parses JSON; each failure is converted into `error::Error` by the
`?` operator and returned as `Err`. -/
def get_metadata : MetaSrc → Outcome VideoInfo
  | .missing => .err .IOError
  | .notUtf8 => .err .Utf8Error
  | .badJson => .err .SerdeJsonError
  | .okData v => .ok v

/-- One entry of an item directory, as enumerated by `read_dir`:
its file name, whether it is a directory, and — when it can be opened
and read as a file — its bytes (`none` models `File::open`/`read`
failing, e.g. for an unreadable file). -/
structure DirEntry where
  name : String
  isDir : Bool
  content : Option Bytes
deriving DecidableEq, Repr

/-- Characters after the last `.` of the list, if any dot exists. -/
def extSplit : List Char → Option (List Char)
  | [] => none
  | c :: rest =>
    match extSplit rest with
    | some e => some e
    | none => if c = '.' then some rest else none

/-- Rust `Path::extension` on a plain file name: the portion after the
last `.`, except that a dot at position 0 (hidden files such as
`.videoInfo`) does not begin an extension. -/
def path_extension (name : String) : Option String :=
  match name.toList with
  | [] => none
  | _ :: rest =>
    match extSplit rest with
    | some e => some (String.mk e)
    | none => none

/-- `get_files_by_extension` (`main.rs` lines 63-77).  `path.read_dir()
.unwrap()` panics when the directory cannot be enumerated (`none`);
otherwise every entry whose `extension()` equals the token is kept —
the code never checks `is_file`, so directories are kept too. -/
def get_files_by_extension (entries : Option (List DirEntry)) (extension : String) :
    Outcome (List DirEntry) :=
  match entries with
  | none => .panic
  | some es => .ok (es.filter (fun e => path_extension e.name == some extension))

/-- `f.seek(SeekFrom::Start(off))`: seeking a regular file to any
offset succeeds, even past end-of-file; the new position is `off`. -/
def seek_start (_data : Bytes) (off : Nat) : Nat := off

/-- `f.read_to_end(&mut data)` after a seek: the bytes from the current
position through end-of-file (empty when the position is at or past
end-of-file). -/
def read_to_end (data : Bytes) (pos : Nat) : Bytes := data.drop pos

/-- The byte transform of the decode loop (`main.rs` lines 109-112):
seek to `SPECIAL_OFFSET`, then read to end. -/
def decode_segment_data (data : Bytes) : Bytes :=
  read_to_end data (seek_start data SPECIAL_OFFSET)

/-- `target_path.join(output_name)` (`main.rs` line 114): the decoded
fragment's path is the target root joined with the segment's file
name only. -/
def fragment_output_path (target : FsPath) (name : String) : FsPath :=
  target ++ [name]

/-- One observable side effect of a pipeline run, with the success of
the underlying operation recorded where the code ignores or logs it. -/
inductive Effect where
  | fsWrite (path : FsPath) (content : Bytes) (ok : Bool)
  | fsCreateDirAll (path : FsPath) (ok : Bool)
  | spawnFfmpeg (inputs : List FsPath) (output : FsPath) (spawned : Bool) (exitCode : Nat)
  | fsRemoveFile (path : FsPath) (ok : Bool)
  | copyCover (src : String) (dst : FsPath) (ok : Bool)
  | copyMetadata (src : FsPath) (dst : FsPath) (ok : Bool)
  | fsRemoveDirAll (path : FsPath) (ok : Bool)
deriving DecidableEq, Repr

/-- The environment one `process` call runs against: the sidecar's
content, the item directory's entries (`none` = unreadable), and the
success of each filesystem / process primitive the pipeline invokes. -/
structure ItemEnv where
  metadata : MetaSrc
  dirEntries : Option (List DirEntry)
  writeOk : String → Bool
  createDirOk : Bool
  spawnOk : Bool
  mergerExit : Nat
  removeFragOk : FsPath → Bool
  coverCopyOk : Bool
  groupCoverCopyOk : Bool
  metaCopyOk : Bool
  removeSourceOk : Bool

/-- The decode loop of `process` (`main.rs` lines 105-117): for each
segment, open it (`.unwrap()` — `none` content panics), strip
`SPECIAL_OFFSET` bytes, write the result next to the target root
(`fs::write`'s `Result` is discarded), and collect the output path.
Returns the effects performed before any panic, and `some` collected
paths when no segment panicked. -/
def decode_segments (target : FsPath) : List DirEntry → (String → Bool) →
    List Effect × Option (List FsPath)
  | [], _ => ([], some [])
  | e :: rest, w =>
    match e.content with
    | none => ([], none)
    | some data =>
      let out := fragment_output_path target e.name
      let eff := Effect.fsWrite out (decode_segment_data data) (w e.name)
      let (tr, r) := decode_segments target rest w
      (eff :: tr, r.map (fun l => out :: l))

/-- The destination directory name (`main.rs` lines 120-130). -/
def target_dir_name (v : VideoInfo) : String :=
  if v.group_title ≠ v.title then
    v.uname ++ " - " ++ v.group_title ++ " - " ++ v.title
  else
    v.uname ++ " - " ++ v.title

/-- The final output file name `"{}.mp4"` of the item id
(`main.rs` lines 134-136). -/
def final_file_name (v : VideoInfo) : String :=
  toString v.item_id ++ ".mp4"

/-- Split a character list into components at `/`. -/
def splitSlash : List Char → List (List Char)
  | [] => [[]]
  | c :: rest =>
    let r := splitSlash rest
    if c = '/' then [] :: r
    else
      match r with
      | [] => [[c]]
      | h :: t => (c :: h) :: t

/-- Rust `Path::file_name` on a path string: the last component, with
empty and `.` components normalized away; `none` when the path ends in
`..` or has no component. -/
def path_file_name (s : String) : Option String :=
  let comps := (splitSlash s.toList).filter (fun c => c != [] && c != ['.'])
  match comps.getLast? with
  | none => none
  | some l => if l = ['.', '.'] then none else some (String.mk l)

/-- `ffmpeg_copy` (`main.rs` lines 86-95): builds the command and calls
`cmd.output()?`.  `Command::output` returns `Err` only when the process
cannot be spawned; the exit status it reports is never examined, so the
function returns `Ok(())` whenever the spawn succeeded. -/
def ffmpeg_copy (spawnOk : Bool) (_exitCode : Nat)
    (_input_media : List FsPath) (_output_file : FsPath) : Outcome Unit :=
  if spawnOk then .ok () else .err .IOError

/-- `check_environment` (`main.rs` lines 247-255): a per-run pre-flight
spawn of `ffmpeg -version`; failure is `Error::CommandNotFound`. -/
def check_environment (ffmpegAvailable : Bool) : Outcome Unit :=
  if ffmpegAvailable then .ok () else .err .CommandNotFound

/-- `process` after the decode loop (`main.rs` lines 119-164):
create the destination directory (`?`), invoke `ffmpeg_copy` (`?`),
best-effort-remove each temporary fragment (failures only logged),
copy the two cover images (`?` each, `InvalidArgument` when the path
has no file name), and copy the sidecar as `videoInfo.json` (its
`fs::copy` `Result` is discarded). -/
def process_merge_phase (env : ItemEnv) (v : VideoInfo) (p t : FsPath)
    (input_media : List FsPath) : List Effect × Outcome Unit :=
  let target_dir := t ++ [target_dir_name v]
  let final_file := target_dir ++ [final_file_name v]
  let tail :=
    if env.createDirOk = false then ([], Outcome.err RustError.IOError)
    else
      let spawnEff := Effect.spawnFfmpeg input_media final_file env.spawnOk env.mergerExit
      match ffmpeg_copy env.spawnOk env.mergerExit input_media final_file with
      | .err e => ([spawnEff], Outcome.err e)
      | .panic => ([spawnEff], Outcome.panic)
      | .ok _ =>
        let rmEffs := input_media.map (fun m => Effect.fsRemoveFile m (env.removeFragOk m))
        match path_file_name v.cover_path with
        | none => (spawnEff :: rmEffs, Outcome.err RustError.InvalidArgument)
        | some fn =>
          let c1 := Effect.copyCover v.cover_path (target_dir ++ [fn]) env.coverCopyOk
          if env.coverCopyOk = false then
            (spawnEff :: rmEffs ++ [c1], Outcome.err RustError.IOError)
          else
            match path_file_name v.group_cover_path with
            | none => (spawnEff :: rmEffs ++ [c1], Outcome.err RustError.InvalidArgument)
            | some gfn =>
              let c2 := Effect.copyCover v.group_cover_path (target_dir ++ [gfn])
                env.groupCoverCopyOk
              if env.groupCoverCopyOk = false then
                (spawnEff :: rmEffs ++ [c1, c2], Outcome.err RustError.IOError)
              else
                let c3 := Effect.copyMetadata (p ++ [VIDEO_METADATA_FILE])
                  (target_dir ++ ["videoInfo.json"]) env.metaCopyOk
                (spawnEff :: rmEffs ++ [c1, c2, c3], Outcome.ok ())
  (Effect.fsCreateDirAll target_dir env.createDirOk :: tail.1, tail.2)

/-- `process` (`main.rs` lines 97-165).  `get_metadata(path).unwrap()`
panics on any metadata error; the segment locator and the decode loop
panic on their own `.unwrap()`s; afterwards the merge phase runs. -/
def process (env : ItemEnv) (path target_path : FsPath) :
    List Effect × Outcome Unit :=
  match get_metadata env.metadata with
  | .err _ => ([], .panic)
  | .panic => ([], .panic)
  | .ok video_info =>
    match get_files_by_extension env.dirEntries "m4s" with
    | .panic => ([], .panic)
    | .err _ => ([], .panic)
    | .ok media =>
      match decode_segments target_path media env.writeOk with
      | (dtr, none) => (dtr, .panic)
      | (dtr, some input_media) =>
        let (mtr, out) := process_merge_phase env video_info path target_path input_media
        (dtr ++ mtr, out)

/-- What one `handle_dir` call did: the effects, whether the item was
reported failed ("Failed to process ..."), whether the run panicked,
and whether a source-directory removal was attempted and failed
(logged, not escalated). -/
structure HandleResult where
  effects : List Effect
  itemFailed : Bool
  panicked : Bool
  sourceRemovalFailed : Bool
deriving DecidableEq, Repr

/-- `handle_dir` (`main.rs` lines 170-188): run `process`; on `Err` log
the failure and stop; on success, when `autoremove` is set, recursively
delete the source directory, logging (not escalating) a failure. -/
def handle_dir (env : ItemEnv) (path target : FsPath) (autoremove : Bool) :
    HandleResult :=
  match process env path target with
  | (tr, .panic) => ⟨tr, false, true, false⟩
  | (tr, .err _) => ⟨tr, true, false, false⟩
  | (tr, .ok _) =>
    if autoremove then
      ⟨tr ++ [Effect.fsRemoveDirAll path env.removeSourceOk], false, false,
        !env.removeSourceOk⟩
    else
      ⟨tr, false, false, false⟩

/-- One source subdirectory of a batch run, with its environment and
whether `path.is_dir()` holds (`main.rs` lines 330-341). -/
structure Item where
  path : FsPath
  env : ItemEnv
  isDir : Bool

/-- The convert-all loop of `main` (`main.rs` lines 330-341): each
directory entry that is a directory is handed to `handle_dir`, in
order.  A panic inside `handle_dir` aborts the whole process: later
items are never reached.  Returns the per-item results of the items
actually handled and whether the run panicked. -/
def run_batch : List Item → FsPath → Bool → List (FsPath × HandleResult) × Bool
  | [], _, _ => ([], false)
  | it :: rest, target, ar =>
    if it.isDir then
      let r := handle_dir it.env it.path target ar
      if r.panicked then ([(it.path, r)], true)
      else
        let (rs, pan) := run_batch rest target ar
        ((it.path, r) :: rs, pan)
    else run_batch rest target ar

/-! ## Structural lemmas about the pipeline -/

/-- The second component of the decode loop (panic-or-collected-paths)
does not depend on whether the ignored `fs::write` calls succeed. -/
theorem decode_segments_snd_indep (target : FsPath) (m : List DirEntry)
    (w w' : String → Bool) :
    (decode_segments target m w).2 = (decode_segments target m w').2 := by
  induction m with
  | nil => rfl
  | cons e rest ih =>
    cases h : e.content <;> simp [decode_segments, h, ih]

/-- When every matched segment can be opened and read, the decode loop
writes one decoded fragment per segment, at the target root joined with
the segment's file name, and collects exactly those paths. -/
theorem decode_segments_eq_of_all_some (target : FsPath) (m : List DirEntry)
    (w : String → Bool) (h : ∀ e ∈ m, e.content ≠ none) :
    decode_segments target m w =
      (m.map (fun e => Effect.fsWrite (fragment_output_path target e.name)
          (decode_segment_data (e.content.getD [])) (w e.name)),
        some (m.map (fun e => fragment_output_path target e.name))) := by
  induction m with
  | nil => rfl
  | cons e rest ih =>
    rcases hc : e.content with _ | data
    · exact absurd hc (h e (by simp))
    · have ih' := ih (fun x hx => h x (by simp [hx]))
      simp [decode_segments, hc, ih']

/-- Every effect of the decode loop is a fragment write. -/
theorem decode_segments_effects_are_writes (target : FsPath) (m : List DirEntry)
    (w : String → Bool) (eff : Effect) (h : eff ∈ (decode_segments target m w).1) :
    ∃ q c b, eff = Effect.fsWrite q c b := by
  induction m with
  | nil => simp [decode_segments] at h
  | cons e rest ih =>
    rcases hc : e.content with _ | data
    · simp [decode_segments, hc] at h
    · simp only [decode_segments, hc] at h
      rcases List.mem_cons.mp h with h' | h'
      · exact ⟨_, _, _, h'⟩
      · exact ih h'

/-- The trace of the merge phase starts with the destination-directory
creation. -/
theorem process_merge_phase_head (env : ItemEnv) (v : VideoInfo) (p t : FsPath)
    (im : List FsPath) :
    (process_merge_phase env v p t im).1 =
      Effect.fsCreateDirAll (t ++ [target_dir_name v]) env.createDirOk ::
        ((process_merge_phase env v p t im).1).tail := rfl

/-- No fragment write ever happens after the destination directory is
created: the tail of the merge phase's trace contains no `fsWrite`. -/
theorem process_merge_phase_tail_no_write (env : ItemEnv) (v : VideoInfo)
    (p t : FsPath) (im : List FsPath) (q : FsPath) (c : Bytes) (b : Bool) :
    Effect.fsWrite q c b ∉ ((process_merge_phase env v p t im).1).tail := by
  by_cases h1 : env.createDirOk = false <;>
  by_cases h2 : env.spawnOk <;>
  rcases hc : path_file_name v.cover_path with _ | fn <;>
  by_cases h3 : env.coverCopyOk = false <;>
  rcases hg : path_file_name v.group_cover_path with _ | gfn <;>
  by_cases h4 : env.groupCoverCopyOk = false <;>
  simp [process_merge_phase, ffmpeg_copy, h1, h2, hc, h3, hg, h4]

/-- The merge phase never removes a directory tree: source-directory
removal belongs to `handle_dir` alone. -/
theorem process_merge_phase_no_removeDirAll (env : ItemEnv) (v : VideoInfo)
    (p t : FsPath) (im : List FsPath) (q : FsPath) (ok : Bool) :
    Effect.fsRemoveDirAll q ok ∉ (process_merge_phase env v p t im).1 := by
  by_cases h1 : env.createDirOk = false <;>
  by_cases h2 : env.spawnOk <;>
  rcases hc : path_file_name v.cover_path with _ | fn <;>
  by_cases h3 : env.coverCopyOk = false <;>
  rcases hg : path_file_name v.group_cover_path with _ | gfn <;>
  by_cases h4 : env.groupCoverCopyOk = false <;>
  simp [process_merge_phase, ffmpeg_copy, h1, h2, hc, h3, hg, h4]

/-- `process` itself never removes a directory tree. -/
theorem process_no_removeDirAll (env : ItemEnv) (p t : FsPath)
    (q : FsPath) (ok : Bool) :
    Effect.fsRemoveDirAll q ok ∉ (process env p t).1 := by
  intro h
  rcases hm : get_metadata env.metadata with v | er | _ <;>
    simp only [process, hm] at h
  · rcases hd : env.dirEntries with _ | es <;>
      simp only [get_files_by_extension, hd] at h
    · simp at h
    · rcases hdec : decode_segments t
          (es.filter (fun e => path_extension e.name == some "m4s"))
          env.writeOk with ⟨dtr, r⟩
      rcases r with _ | im <;> simp only [hdec] at h
      · rcases decode_segments_effects_are_writes _ _ _ _
          (by rw [hdec]; exact h) with ⟨_, _, _, hw⟩
        exact Effect.noConfusion hw
      · rcases List.mem_append.mp h with h' | h'
        · rcases decode_segments_effects_are_writes _ _ _ _
            (by rw [hdec]; exact h') with ⟨_, _, _, hw⟩
          exact Effect.noConfusion hw
        · exact process_merge_phase_no_removeDirAll env v p t im q ok h'
  · simp at h
  · simp at h

/-- The merge phase's outcome does not depend on the merger's exit
status: `cmd.output()?` only fails when the spawn fails. -/
theorem process_merge_phase_outcome_indep_exit (env : ItemEnv) (v : VideoInfo)
    (p t : FsPath) (im : List FsPath) (e : Nat) :
    (process_merge_phase { env with mergerExit := e } v p t im).2 =
      (process_merge_phase env v p t im).2 := by
  by_cases h1 : env.createDirOk = false <;>
  by_cases h2 : env.spawnOk <;>
  rcases hc : path_file_name v.cover_path with _ | fn <;>
  by_cases h3 : env.coverCopyOk = false <;>
  rcases hg : path_file_name v.group_cover_path with _ | gfn <;>
  by_cases h4 : env.groupCoverCopyOk = false <;>
  simp [process_merge_phase, ffmpeg_copy, h1, h2, hc, h3, hg, h4]

/-- The outcome of `process` does not depend on the merger's exit
status. -/
theorem process_outcome_indep_exit (env : ItemEnv) (p t : FsPath) (e : Nat) :
    (process { env with mergerExit := e } p t).2 = (process env p t).2 := by
  rcases hm : get_metadata env.metadata with v | er | _ <;>
    simp only [process, hm]
  · rcases hd : env.dirEntries with _ | es <;>
      simp only [get_files_by_extension, hd]
    rcases hdec : decode_segments t
        (es.filter (fun x => path_extension x.name == some "m4s"))
        env.writeOk with ⟨dtr, r⟩
    rcases r with _ | im <;> simp only [hdec]
    exact process_merge_phase_outcome_indep_exit env v p t im e

/-- The outcome of `process` does not depend on whether the discarded
`fs::write` calls of the decode loop succeed. -/
theorem process_outcome_indep_writeOk (env : ItemEnv) (p t : FsPath)
    (w : String → Bool) :
    (process { env with writeOk := w } p t).2 = (process env p t).2 := by
  rcases hm : get_metadata env.metadata with v | er | _ <;>
    simp only [process, hm]
  · rcases hd : env.dirEntries with _ | es <;>
      simp only [get_files_by_extension, hd]
    have hsnd := decode_segments_snd_indep t
      (es.filter (fun x => path_extension x.name == some "m4s")) w env.writeOk
    rcases hdec : decode_segments t
        (es.filter (fun x => path_extension x.name == some "m4s"))
        env.writeOk with ⟨dtr, r⟩
    rcases hdec' : decode_segments t
        (es.filter (fun x => path_extension x.name == some "m4s"))
        w with ⟨dtr', r'⟩
    rw [hdec', hdec] at hsnd
    simp only at hsnd
    rcases r' with _ | im' <;> rcases r with _ | im <;> simp only [hdec, hdec']
    · exact absurd hsnd (by simp)
    · exact absurd hsnd (by simp)
    · obtain rfl : im' = im := by simpa using hsnd
      rfl

/-! ## Claim theorems -/

/-- C1: for every segment file of length at least `SPECIAL_OFFSET` (9)
bytes, the decode loop writes a fragment file at
`<target>/<original-filename>` whose content is byte-for-byte the
source bytes from offset 9 through end-of-file. -/
theorem segment_decoder_strips_header (target : FsPath) (name : String)
    (data : Bytes) (w : String → Bool) (h : SPECIAL_OFFSET ≤ data.length) :
    decode_segments target [⟨name, false, some data⟩] w =
      ([Effect.fsWrite (fragment_output_path target name)
          (decode_segment_data data) (w name)],
        some [fragment_output_path target name]) ∧
    (decode_segment_data data).length + SPECIAL_OFFSET = data.length ∧
    ∀ i : Nat, (decode_segment_data data)[i]? = data[SPECIAL_OFFSET + i]? := by
  refine ⟨rfl, ?_, ?_⟩
  · simp only [decode_segment_data, read_to_end, seek_start, List.length_drop,
      SPECIAL_OFFSET] at h ⊢
    omega
  · intro i
    simp [decode_segment_data, read_to_end, seek_start, List.getElem?_drop]

/-- C1 witness: a concrete 12-byte segment. -/
theorem segment_decoder_strips_header_app :
    SPECIAL_OFFSET ≤ ([0, 1, 2, 3, 4, 5, 6, 7, 8, 9, 10, 11] : Bytes).length ∧
    (decode_segments ["out"] [⟨"a.m4s", false,
        some [0, 1, 2, 3, 4, 5, 6, 7, 8, 9, 10, 11]⟩] (fun _ => true) =
      ([Effect.fsWrite (fragment_output_path ["out"] "a.m4s")
          (decode_segment_data [0, 1, 2, 3, 4, 5, 6, 7, 8, 9, 10, 11]) true],
        some [fragment_output_path ["out"] "a.m4s"]) ∧
      (decode_segment_data ([0, 1, 2, 3, 4, 5, 6, 7, 8, 9, 10, 11] : Bytes)).length
          + SPECIAL_OFFSET = ([0, 1, 2, 3, 4, 5, 6, 7, 8, 9, 10, 11] : Bytes).length ∧
      ∀ i : Nat, (decode_segment_data ([0, 1, 2, 3, 4, 5, 6, 7, 8, 9, 10, 11] : Bytes))[i]? =
        ([0, 1, 2, 3, 4, 5, 6, 7, 8, 9, 10, 11] : Bytes)[SPECIAL_OFFSET + i]?) :=
  ⟨by decide,
    segment_decoder_strips_header ["out"] "a.m4s"
      [0, 1, 2, 3, 4, 5, 6, 7, 8, 9, 10, 11] (fun _ => true) (by decide)⟩

/-- C2 counterexample: a 5-byte segment (shorter than `SPECIAL_OFFSET`).
`seek` past end-of-file succeeds and `read_to_end` reads nothing, so the
pipeline writes an *empty* fragment file and finishes with `Ok` — there
is no `SegmentTooShort` error anywhere in the code. -/
def shortSegEnv : ItemEnv :=
  { metadata := .okData
      ⟨"Alice", "EP1", "Season1", 1700000000, 1700000100, 1048576, 42,
        "/tmp/cover.jpg", "/tmp/gcover.jpg"⟩
    dirEntries := some [⟨"a.m4s", false, some [1, 2, 3, 4, 5]⟩]
    writeOk := fun _ => true
    createDirOk := true
    spawnOk := true
    mergerExit := 0
    removeFragOk := fun _ => true
    coverCopyOk := true
    groupCoverCopyOk := true
    metaCopyOk := true
    removeSourceOk := true }

/-- C2 counterexample: decoding a 5-byte segment does not fail; it
writes an empty fragment and the whole item pipeline reports success. -/
theorem short_segment_silently_empty :
    Effect.fsWrite ["out", "a.m4s"] [] true ∈
      (process shortSegEnv ["src", "A"] ["out"]).1 ∧
    (process shortSegEnv ["src", "A"] ["out"]).2 = Outcome.ok () := by decide

/-- C2 amended: for every segment file shorter than `SPECIAL_OFFSET`
bytes, decoding does not fail — it silently writes an empty fragment
file at `<target>/<original-filename>` and the pipeline continues. -/
theorem short_segment_writes_empty (target : FsPath) (name : String)
    (data : Bytes) (w : String → Bool) (h : data.length < SPECIAL_OFFSET) :
    decode_segments target [⟨name, false, some data⟩] w =
      ([Effect.fsWrite (fragment_output_path target name) [] (w name)],
        some [fragment_output_path target name]) := by
  have hnil : decode_segment_data data = [] := by
    simp only [decode_segment_data, read_to_end, seek_start]
    exact List.drop_eq_nil_of_le (Nat.le_of_lt h)
  simp [decode_segments, hnil]

/-- C2 amended witness: the 5-byte segment again. -/
theorem short_segment_writes_empty_app :
    ([1, 2, 3, 4, 5] : Bytes).length < SPECIAL_OFFSET ∧
    decode_segments ["out"] [⟨"a.m4s", false, some [1, 2, 3, 4, 5]⟩]
        (fun _ => true) =
      ([Effect.fsWrite (fragment_output_path ["out"] "a.m4s") [] true],
        some [fragment_output_path ["out"] "a.m4s"]) :=
  ⟨by decide,
    short_segment_writes_empty ["out"] "a.m4s" [1, 2, 3, 4, 5]
      (fun _ => true) (by decide)⟩

/-- C3: the destination directory name is
`"<owner> - <group-title> - <title>"` when group title and title
differ, `"<owner> - <title>"` when they are equal, and the final
output file name is the item id followed by the container
extension `.mp4`. -/
theorem output_planner_names (v : VideoInfo) :
    (v.group_title = v.title → target_dir_name v = v.uname ++ " - " ++ v.title) ∧
    (v.group_title ≠ v.title →
      target_dir_name v = v.uname ++ " - " ++ v.group_title ++ " - " ++ v.title) ∧
    final_file_name v = toString v.item_id ++ ".mp4" := by
  refine ⟨fun h => ?_, fun h => ?_, rfl⟩ <;> simp [target_dir_name, h]

/-- C3 witness: the spec's own example (`Alice`/`EP1`/`Season1`,
item id 42), plus an item whose group title equals its title. -/
theorem output_planner_names_app :
    target_dir_name
        ⟨"Alice", "EP1", "Season1", 1700000000, 1700000100, 1048576, 42,
          "/tmp/cover.jpg", "/tmp/gcover.jpg"⟩ = "Alice - Season1 - EP1" ∧
    target_dir_name
        ⟨"Alice", "EP1", "EP1", 1700000000, 1700000100, 1048576, 42,
          "/tmp/cover.jpg", "/tmp/gcover.jpg"⟩ = "Alice - EP1" ∧
    final_file_name
        ⟨"Alice", "EP1", "Season1", 1700000000, 1700000100, 1048576, 42,
          "/tmp/cover.jpg", "/tmp/gcover.jpg"⟩ = "42.mp4" := by
  refine ⟨?_, ?_, ?_⟩
  · have := (output_planner_names
      ⟨"Alice", "EP1", "Season1", 1700000000, 1700000100, 1048576, 42,
        "/tmp/cover.jpg", "/tmp/gcover.jpg"⟩).2.1 (by decide)
    simpa using this
  · have := (output_planner_names
      ⟨"Alice", "EP1", "EP1", 1700000000, 1700000100, 1048576, 42,
        "/tmp/cover.jpg", "/tmp/gcover.jpg"⟩).1 rfl
    simpa using this
  · exact (output_planner_names _).2.2

/-- Environment of a batch item whose `.videoInfo` sidecar holds
invalid JSON: `get_metadata` returns `Err(SerdeJsonError)`, which
`process` immediately `.unwrap()`s. -/
def badMetaEnv : ItemEnv :=
  { metadata := .badJson
    dirEntries := some [⟨"a.m4s", false, some [0, 1, 2, 3, 4, 5, 6, 7, 8, 9]⟩]
    writeOk := fun _ => true
    createDirOk := true
    spawnOk := true
    mergerExit := 0
    removeFragOk := fun _ => true
    coverCopyOk := true
    groupCoverCopyOk := true
    metaCopyOk := true
    removeSourceOk := true }

/-- Environment of a fully valid sibling batch item. -/
def validSiblingEnv : ItemEnv :=
  { metadata := .okData
      ⟨"Bob", "EP2", "Season1", 1700000000, 1700000100, 1048576, 43,
        "/tmp/cover.jpg", "/tmp/gcover.jpg"⟩
    dirEntries := some [⟨"b.m4s", false, some [0, 1, 2, 3, 4, 5, 6, 7, 8, 9]⟩]
    writeOk := fun _ => true
    createDirOk := true
    spawnOk := true
    mergerExit := 0
    removeFragOk := fun _ => true
    coverCopyOk := true
    groupCoverCopyOk := true
    metaCopyOk := true
    removeSourceOk := true }

/-- C4: `process` calls `get_metadata(path).unwrap()`, so a
metadata-parse failure in one item panics and aborts the whole run: in
a batch of a broken item `A` followed by a fully valid item `B`, the
run stops at `A` and `B` is never handled, contradicting the claimed
per-item failure isolation (which `handle_dir`'s own log-and-continue
error handling was built for). -/
theorem metadata_parse_failure_aborts_batch :
    (run_batch [⟨["src", "A"], badMetaEnv, true⟩, ⟨["src", "B"], validSiblingEnv, true⟩]
      ["out"] false).2 = true ∧
    ((run_batch [⟨["src", "A"], badMetaEnv, true⟩, ⟨["src", "B"], validSiblingEnv, true⟩]
      ["out"] false).1).map Prod.fst = [["src", "A"]] := by decide

/-- C5 counterexample: the merger's process is spawned successfully but
exits with status 1; `ffmpeg_copy` still returns `Ok(())`, because
`cmd.output()?` only fails when the spawn fails and the exit status is
never examined. -/
theorem merger_nonzero_exit_reports_success :
    ffmpeg_copy true 1 [["out", "a.m4s"]] ["out", "Alice - EP1", "42.mp4"] =
      Outcome.ok () := rfl

/-- C5 amended: the merge step's result depends only on whether the
external tool could be spawned — a spawn failure is an `IOError` (and a
run-level pre-flight check reports `CommandNotFound` when `ffmpeg` is
unavailable), but the exit status is never checked, so the merge step,
and the whole item outcome, are unchanged by a nonzero exit status. -/
theorem merger_checks_spawn_only (env : ItemEnv) (p t : FsPath) (e exit : Nat)
    (inputs : List FsPath) (out : FsPath) :
    ffmpeg_copy true exit inputs out = Outcome.ok () ∧
    ffmpeg_copy false exit inputs out = Outcome.err RustError.IOError ∧
    check_environment false = Outcome.err RustError.CommandNotFound ∧
    (process { env with mergerExit := e } p t).2 = (process env p t).2 :=
  ⟨rfl, rfl, rfl, process_outcome_indep_exit env p t e⟩

/-- Environment of an item directory holding no `.m4s` segment at all
(only the metadata sidecar, which has no extension). -/
def noSegmentsEnv : ItemEnv :=
  { metadata := .okData
      ⟨"Bob", "T", "T", 1700000000, 1700000100, 0, 7, "/tmp/c.jpg", "/tmp/g.jpg"⟩
    dirEntries := some [⟨".videoInfo", false, some []⟩]
    writeOk := fun _ => true
    createDirOk := true
    spawnOk := true
    mergerExit := 1
    removeFragOk := fun _ => true
    coverCopyOk := true
    groupCoverCopyOk := true
    metaCopyOk := true
    removeSourceOk := true }

/-- C6 counterexample: an item with no matching segment files is not
failed — `ffmpeg` is spawned with zero inputs and, the exit status
being unchecked, the item is even reported successful. -/
theorem no_segments_spawns_merger_counterexample :
    Effect.spawnFfmpeg [] ["out", "Bob - T", "7.mp4"] true 1 ∈
      (process noSegmentsEnv ["src", "C"] ["out"]).1 ∧
    (process noSegmentsEnv ["src", "C"] ["out"]).2 = Outcome.ok () := by decide

/-- C6 amended: when an item directory contains no file with the
matching extension, the orchestrator does not fail the item (there is
no `NoSegmentsFound` error in the code): it proceeds and the external
tool is invoked with an empty input list. -/
theorem no_segments_still_spawns_merger (env : ItemEnv) (p t : FsPath)
    (v : VideoInfo) (es : List DirEntry)
    (hm : env.metadata = MetaSrc.okData v)
    (hd : env.dirEntries = some es)
    (hnone : ∀ e ∈ es, path_extension e.name ≠ some "m4s")
    (hcd : env.createDirOk = true) :
    Effect.spawnFfmpeg [] (t ++ [target_dir_name v] ++ [final_file_name v])
      env.spawnOk env.mergerExit ∈ (process env p t).1 := by
  have hfil : es.filter (fun e => path_extension e.name == some "m4s") = [] := by
    rw [List.filter_eq_nil_iff]
    intro a ha
    simpa using hnone a ha
  simp only [process, hm, get_metadata, get_files_by_extension, hd, hfil,
    decode_segments]
  by_cases hs : env.spawnOk <;>
  rcases hc : path_file_name v.cover_path with _ | fn <;>
  by_cases h3 : env.coverCopyOk = false <;>
  rcases hg : path_file_name v.group_cover_path with _ | gfn <;>
  by_cases h4 : env.groupCoverCopyOk = false <;>
  simp [process_merge_phase, ffmpeg_copy, hcd, hs, hc, h3, hg, h4]

/-- C6 amended witness: the concrete no-segment item again. -/
theorem no_segments_still_spawns_merger_app :
    Effect.spawnFfmpeg []
        (["out"] ++ [target_dir_name
          ⟨"Bob", "T", "T", 1700000000, 1700000100, 0, 7, "/tmp/c.jpg", "/tmp/g.jpg"⟩]
          ++ [final_file_name
          ⟨"Bob", "T", "T", 1700000000, 1700000100, 0, 7, "/tmp/c.jpg", "/tmp/g.jpg"⟩])
        noSegmentsEnv.spawnOk noSegmentsEnv.mergerExit ∈
      (process noSegmentsEnv ["src", "C"] ["out"]).1 :=
  no_segments_still_spawns_merger noSegmentsEnv ["src", "C"] ["out"] _ _
    rfl rfl (by decide) rfl

/-- Environment in which every `fs::write` of a decoded fragment
fails. -/
def failedWriteEnv : ItemEnv :=
  { metadata := .okData
      ⟨"Alice", "EP1", "Season1", 1700000000, 1700000100, 1048576, 42,
        "/tmp/cover.jpg", "/tmp/gcover.jpg"⟩
    dirEntries := some [⟨"a.m4s", false,
      some [0, 1, 2, 3, 4, 5, 6, 7, 8, 9, 10, 11]⟩]
    writeOk := fun _ => false
    createDirOk := true
    spawnOk := true
    mergerExit := 0
    removeFragOk := fun _ => true
    coverCopyOk := true
    groupCoverCopyOk := true
    metaCopyOk := true
    removeSourceOk := true }

/-- C7 counterexample: the fragment write fails (`fs::write`'s `Result`
is discarded with a bare `;`), yet the pipeline pushes the fragment's
path to the merger's input list and reports overall success. -/
theorem fragment_write_failure_swallowed :
    (process failedWriteEnv ["src", "D"] ["out"]).2 = Outcome.ok () ∧
    Effect.fsWrite ["out", "a.m4s"] [9, 10, 11] false ∈
      (process failedWriteEnv ["src", "D"] ["out"]).1 ∧
    Effect.spawnFfmpeg [["out", "a.m4s"]] ["out", "Alice - Season1 - EP1", "42.mp4"]
        true 0 ∈ (process failedWriteEnv ["src", "D"] ["out"]).1 := by decide

/-- C7 amended: a failure to write a decoded fragment file is silently
ignored — the outcome of the item's pipeline is entirely independent of
whether the fragment writes succeed. -/
theorem fragment_write_failure_ignored (env : ItemEnv) (p t : FsPath)
    (w : String → Bool) :
    (process { env with writeOk := w } p t).2 = (process env p t).2 :=
  process_outcome_indep_writeOk env p t w

/-- C8 counterexample: an unenumerable item directory makes
`path.read_dir().unwrap()` panic — the run crashes instead of returning
an error value — and a *directory* named `sub.m4s` is returned as a
segment, because the locator never checks that an entry is a file. -/
theorem locator_unreadable_panics :
    get_files_by_extension none "m4s" = Outcome.panic ∧
    get_files_by_extension (some [⟨"sub.m4s", true, none⟩]) "m4s" =
      Outcome.ok [⟨"sub.m4s", true, none⟩] := by decide

/-- C8 amended: if the item directory cannot be enumerated the Segment
Locator panics (crashing the run) rather than returning a
`DirectoryUnreadable`-style error; when enumeration succeeds it returns
exactly the entries whose file-name extension matches — including
directories, which are not skipped. -/
theorem locator_panics_and_filters (ext : String) (es : List DirEntry)
    (e : DirEntry) :
    get_files_by_extension none ext = Outcome.panic ∧
    get_files_by_extension (some es) ext =
      Outcome.ok (es.filter (fun x => path_extension x.name == some ext)) ∧
    (e ∈ es.filter (fun x => path_extension x.name == some ext) ↔
      e ∈ es ∧ path_extension e.name = some ext) := by
  refine ⟨rfl, rfl, ?_⟩
  simp [List.mem_filter]

/-- C9: `handle_dir` recursively deletes the source item directory
exactly when `autoremove` is set and `process` succeeded; and when
that deletion fails, the failure is reported (logged) while the item's
outcome stays successful. -/
theorem handle_dir_source_removal (env : ItemEnv) (p t : FsPath) (ar : Bool) :
    ((∃ ok, Effect.fsRemoveDirAll p ok ∈ (handle_dir env p t ar).effects) ↔
      (ar = true ∧ (process env p t).2 = Outcome.ok ())) ∧
    ((process env p t).2 = Outcome.ok () →
      (handle_dir env p t ar).itemFailed = false) ∧
    (ar = true → (process env p t).2 = Outcome.ok () →
      env.removeSourceOk = false →
      (handle_dir env p t ar).sourceRemovalFailed = true ∧
        (handle_dir env p t ar).itemFailed = false) := by
  rcases hp : process env p t with ⟨tr, out⟩
  have hnr : ∀ ok, Effect.fsRemoveDirAll p ok ∉ tr := fun ok h =>
    process_no_removeDirAll env p t p ok (by rw [hp]; exact h)
  cases out with
  | ok u =>
    cases u
    by_cases har : ar = true
    · subst har
      refine ⟨⟨fun _ => ⟨rfl, rfl⟩,
        fun _ => ⟨env.removeSourceOk, by simp [handle_dir, hp]⟩⟩,
        fun _ => by simp [handle_dir, hp],
        fun _ _ hrm => ⟨by simp [handle_dir, hp, hrm], by simp [handle_dir, hp]⟩⟩
    · have har' : ar = false := by revert har; cases ar <;> simp
      subst har'
      refine ⟨⟨fun ⟨ok, h⟩ => absurd
          (show Effect.fsRemoveDirAll p ok ∈ tr by simpa [handle_dir, hp] using h)
          (hnr ok),
        fun ⟨h, _⟩ => absurd h (by simp)⟩,
        fun _ => by simp [handle_dir, hp],
        fun h => absurd h (by simp)⟩
  | err er =>
    simp only [handle_dir, hp]
    exact ⟨⟨fun ⟨ok, h⟩ => absurd h (hnr ok), fun ⟨_, h⟩ => absurd h (by simp)⟩,
      fun h => absurd h (by simp), fun _ h => absurd h (by simp)⟩
  | panic =>
    simp only [handle_dir, hp]
    exact ⟨⟨fun ⟨ok, h⟩ => absurd h (hnr ok), fun ⟨_, h⟩ => absurd h (by simp)⟩,
      fun h => absurd h (by simp), fun _ h => absurd h (by simp)⟩

/-- Environment of a fully successful item whose source-directory
removal fails. -/
def removalFailEnv : ItemEnv :=
  { metadata := .okData
      ⟨"Alice", "EP1", "Season1", 1700000000, 1700000100, 1048576, 42,
        "/tmp/cover.jpg", "/tmp/gcover.jpg"⟩
    dirEntries := some [⟨"a.m4s", false,
      some [0, 1, 2, 3, 4, 5, 6, 7, 8, 9, 10, 11]⟩]
    writeOk := fun _ => true
    createDirOk := true
    spawnOk := true
    mergerExit := 0
    removeFragOk := fun _ => true
    coverCopyOk := true
    groupCoverCopyOk := true
    metaCopyOk := true
    removeSourceOk := false }

/-- C9 witness: with `autoremove` set, a successful item whose source
removal fails still reports success, and the removal was attempted. -/
theorem handle_dir_source_removal_app :
    (∃ ok, Effect.fsRemoveDirAll ["src", "F"] ok ∈
      (handle_dir removalFailEnv ["src", "F"] ["out"] true).effects) ∧
    (handle_dir removalFailEnv ["src", "F"] ["out"] true).sourceRemovalFailed = true ∧
    (handle_dir removalFailEnv ["src", "F"] ["out"] true).itemFailed = false := by
  have h := handle_dir_source_removal removalFailEnv ["src", "F"] ["out"] true
  have hok : (process removalFailEnv ["src", "F"] ["out"]).2 = Outcome.ok () := by
    decide
  exact ⟨h.1.mpr ⟨rfl, hok⟩, (h.2.2 rfl hok rfl).1, (h.2.2 rfl hok rfl).2⟩

/-- C10: decoded fragments are written at `<target-root>/<segment-name>`
— into the shared target root, with a path depending only on the target
root and the segment's own file name, not on the item — and every such
write happens before the item's destination directory is created (no
fragment write follows the `create_dir_all`). -/
theorem fragments_written_to_target_root (env : ItemEnv) (p t : FsPath)
    (v : VideoInfo) (es : List DirEntry)
    (hm : env.metadata = MetaSrc.okData v)
    (hd : env.dirEntries = some es)
    (hc : ∀ e ∈ es.filter (fun x => path_extension x.name == some "m4s"),
      e.content ≠ none) :
    ∃ rest : List Effect,
      (process env p t).1 =
        (es.filter (fun x => path_extension x.name == some "m4s")).map
          (fun e => Effect.fsWrite (fragment_output_path t e.name)
            (decode_segment_data (e.content.getD [])) (env.writeOk e.name))
        ++ Effect.fsCreateDirAll (t ++ [target_dir_name v]) env.createDirOk :: rest ∧
      ∀ q c b, Effect.fsWrite q c b ∉ rest := by
  have hdec := decode_segments_eq_of_all_some t
    (es.filter (fun x => path_extension x.name == some "m4s")) env.writeOk hc
  refine ⟨((process_merge_phase env v p t
      ((es.filter (fun x => path_extension x.name == some "m4s")).map
        (fun e => fragment_output_path t e.name))).1).tail, ?_,
    fun q c b => process_merge_phase_tail_no_write env v p t _ q c b⟩
  simp only [process, hm, get_metadata, get_files_by_extension, hd, hdec]
  rw [process_merge_phase_head]
  simp only [List.tail_cons]

/-- Environment of an ordinary single-segment item, used to witness the
fragment-write layout. -/
def rootWriteEnv : ItemEnv :=
  { metadata := .okData
      ⟨"Alice", "EP1", "Season1", 1700000000, 1700000100, 1048576, 42,
        "/tmp/cover.jpg", "/tmp/gcover.jpg"⟩
    dirEntries := some [⟨"a.m4s", false,
      some [0, 1, 2, 3, 4, 5, 6, 7, 8, 9, 10, 11]⟩]
    writeOk := fun _ => true
    createDirOk := true
    spawnOk := true
    mergerExit := 0
    removeFragOk := fun _ => true
    coverCopyOk := true
    groupCoverCopyOk := true
    metaCopyOk := true
    removeSourceOk := true }

/-- C10 witness: the concrete single-segment item. -/
theorem fragments_written_to_target_root_app :
    ∃ rest : List Effect,
      (process rootWriteEnv ["src", "E"] ["out"]).1 =
        (([⟨"a.m4s", false, some [0, 1, 2, 3, 4, 5, 6, 7, 8, 9, 10, 11]⟩] :
            List DirEntry).filter
            (fun x => path_extension x.name == some "m4s")).map
          (fun e => Effect.fsWrite (fragment_output_path ["out"] e.name)
            (decode_segment_data (e.content.getD [])) (rootWriteEnv.writeOk e.name))
        ++ Effect.fsCreateDirAll (["out"] ++ [target_dir_name
            ⟨"Alice", "EP1", "Season1", 1700000000, 1700000100, 1048576, 42,
              "/tmp/cover.jpg", "/tmp/gcover.jpg"⟩]) rootWriteEnv.createDirOk :: rest ∧
      ∀ q c b, Effect.fsWrite q c b ∉ rest :=
  fragments_written_to_target_root rootWriteEnv ["src", "E"] ["out"] _ _
    rfl rfl (by decide)

end Bilibili
